import Mathlib

/-!
Verification of the wyttle static-site generator (src/wyttle.py) against its
natural-language specification.  The pipeline's text passes are embedded as
executable functions over `List Char` (Python strings), filesystem paths as
`List String` (path segments), and the filesystem itself as oracle functions
passed in as parameters (`exists`, `load`).  Regex passes are embedded as
explicit left-to-right scanners with the same match semantics as the source
patterns; fuel equal to the input length bounds the recursion, and every
successful match consumes at least one character, so the fuel never runs out.
-/

/-- Characters Python treats as whitespace for `str.strip` and regex `\s`. -/
def isSpaceCh (c : Char) : Bool :=
  c == ' ' || c == '\t' || c == '\n' || c == '\r' || c == '\x0b' || c == '\x0c'

/-- `pat` is a prefix of `l` (Python `str.startswith` on the char list). -/
def startsWithL : List Char → List Char → Bool
  | [], _ => true
  | _ :: _, [] => false
  | p :: ps, c :: cs => if p = c then startsWithL ps cs else false

/-- `pat` is a suffix of `l` (Python `str.endswith`). -/
def endsWithL (pat l : List Char) : Bool :=
  startsWithL pat.reverse l.reverse

/-- `pat` occurs somewhere in `l` (Python `in`). -/
def isSubstr (pat : List Char) : List Char → Bool
  | [] => startsWithL pat []
  | c :: t => startsWithL pat (c :: t) || isSubstr pat (c :: t).tail

/-- Python `str.strip`: drop leading and trailing whitespace. -/
def pyStrip (l : List Char) : List Char :=
  ((l.dropWhile isSpaceCh).reverse.dropWhile isSpaceCh).reverse

/-- First occurrence of `pat` in `l`: `some (before, after)` splits
`l = before ++ pat ++ after` at the leftmost occurrence.  This is the
non-greedy `(.*?)pat` search used by the source's regexes. -/
def findSub (pat : List Char) : List Char → Option (List Char × List Char)
  | [] => if startsWithL pat [] then some ([], []) else none
  | c :: t =>
    if startsWithL pat (c :: t) then some ([], (c :: t).drop pat.length)
    else (findSub pat t).map (fun ba => (c :: ba.1, ba.2))

/-- One `re.sub` pass: at each position try the match function; on a match
emit its replacement and continue after the matched span, otherwise copy one
character.  `tryF l = some (repl, rest)` means a match at the head of `l`
whose replacement is `repl` and whose span ends where `rest` begins. -/
def scanRw (tryF : List Char → Option (List Char × List Char)) :
    Nat → List Char → List Char
  | 0, l => l
  | _ + 1, [] => []
  | fuel + 1, c :: t =>
    match tryF (c :: t) with
    | some (r, rest) => r ++ scanRw tryF fuel rest
    | none => c :: scanRw tryF fuel t

/-- `re.sub` over the whole input (fuel = length suffices: every match of the
patterns below consumes at least one character). -/
def applyRw (tryF : List Char → Option (List Char × List Char))
    (l : List Char) : List Char :=
  scanRw tryF (l.length + 1) l

/-- One `re.findall` pass, collecting each match's captures. -/
def scanFa {α : Type} (tryF : List Char → Option (α × List Char)) :
    Nat → List Char → List α
  | 0, _ => []
  | _ + 1, [] => []
  | fuel + 1, c :: t =>
    match tryF (c :: t) with
    | some (a, rest) => a :: scanFa tryF fuel rest
    | none => scanFa tryF fuel t

/-- `re.findall` over the whole input. -/
def findAll {α : Type} (tryF : List Char → Option (α × List Char))
    (l : List Char) : List α :=
  scanFa tryF (l.length + 1) l

/-- Python `str.replace`: every non-overlapping occurrence of `pat` (nonempty
at all use sites) is replaced by `repl`. -/
def replaceAll (pat repl l : List Char) : List Char :=
  if pat.isEmpty then l
  else applyRw (fun s => if startsWithL pat s then some (repl, s.drop pat.length) else none) l

/-! ## Path resolution (resolve_inline_path, resolve_template_path) -/

/-- One step of POSIX path normalization as `Path.resolve` performs it on an
absolute path: `.` is dropped, `..` removes the previous segment (clamped at
the root), anything else is appended. -/
def normStep (acc : List String) (s : String) : List String :=
  if s = "." then acc
  else if s = ".." then acc.dropLast
  else acc ++ [s]

/-- Normalize a segment list (the pure-path part of `Path.resolve`). -/
def normSegs (l : List String) : List String := l.foldl normStep []

/-- `resolve_inline_path(file_ref, current_file)`: join the reference onto the
referencing file's parent directory, normalize, and return the result only if
it exists; the `except` arms of the source are the `none` branches of this
total function, so no error escapes.  `ex` is the filesystem's `exists`
oracle; paths are segment lists. -/
def resolve_inline_path (ex : List String → Bool) (file_ref current_file : List String) :
    Option (List String) :=
  let resolved := normSegs (current_file.dropLast ++ file_ref)
  if ex resolved then some resolved else none

/-- `resolve_template_path(template_ref, current_file)`: parse the directive
text (the `re.match` on `<%@ ... %>`, abstracted as `parse`; `none` models a
failed match), then resolve exactly as `resolve_inline_path` does. -/
def resolve_template_path (parse : List Char → Option (List String))
    (ex : List String → Bool) (template_ref : List Char) (current_file : List String) :
    Option (List String) :=
  match parse template_ref with
  | none => none
  | some r =>
    let resolved := normSegs (current_file.dropLast ++ r)
    if ex resolved then some resolved else none

/-! ## Output path of the build pipeline (process_file + build_project) -/

/-- The output path the code computes for a page, as segments relative to the
output root.  `rel` is the source path relative to `src_dir` (so it starts
with the `pages` segment and has length at least two).  `process_file` writes
to `output_dir / file_path.relative_to(file_path.parents[1])`, i.e. the last
directory name plus the file name; `build_project` then moves every entry of
`dist/pages` to the output root. -/
def output_rel_path (rel : List String) : List String :=
  let r := rel.drop (rel.length - 2)
  if r.head? = some "pages" then r.drop 1 else r

/-- Modelled from the spec: the output path the spec describes, the source
path relative to `src_dir` with the leading `pages` segment removed (the
output tree mirrors the `pages` subtree). -/
def spec_output_rel_path (rel : List String) : List String :=
  if rel.head? = some "pages" then rel.drop 1 else rel

/-! ## Dev server request-path translation (DevServerHandler.translate_path) -/

/-- Split a relative path string on `/` the way `pathlib.PurePath` does:
empty segments and `.` segments vanish, `..` segments are kept. -/
def splitRaw : List Char → List (List Char)
  | [] => [[]]
  | c :: t =>
    let r := splitRaw t
    if c = '/' then [] :: r else (c :: r.headD []) :: r.drop 1

/-- Segments of a relative path string under `pathlib` joining rules. -/
def splitSlash (l : List Char) : List String :=
  ((splitRaw l).filter (fun s => !(s.isEmpty || s == ['.']))).map (fun s => String.mk s)

/-- `DevServerHandler.translate_path`: keep the URL path (chars before any
`?` or `#`, what `urlparse(path).path` yields for a plain request path), strip
leading slashes, and join onto the dist directory.  No `..` normalization and
no containment check happens. -/
def translate_path (dist_dir : List String) (req : List Char) : List String :=
  dist_dir ++ splitSlash ((req.takeWhile (fun c => !(c == '?' || c == '#'))).dropWhile (fun c => c == '/'))

/-- `p` lies under directory `base` (segment-wise prefix test). -/
def isUnderDir : List String → List String → Bool
  | [], _ => true
  | _ :: _, [] => false
  | b :: bs, x :: xs => if b = x then isUnderDir bs xs else false

/-! ## Reload channel and file watcher (start_dev_server, FileWatcher) -/

/-- What the watcher can do in response to a filesystem event: it only ever
rebuilds; no constructor notifies the reload channel. -/
inductive WatchAction where
  | rebuild
deriving DecidableEq

/-- `FileWatcher.on_any_event`: directory events and events on the config
file are ignored, everything else triggers one full rebuild. -/
def on_any_event (is_directory : Bool) (src_path : List Char) : Option WatchAction :=
  if is_directory || endsWithL (".config.json".toList) src_path then none
  else some WatchAction.rebuild

/-- The reload-channel connection loop of `start_dev_server.ws_server`: the
payloads the server writes to one accepted connection, as a function of the
chunks `recv` returns on it.  Each nonempty chunk is answered with
`b"reload"`; the first empty chunk (peer closed) ends the loop.  Rebuilds are
not an input: nothing links `build_project` to this loop. -/
def ws_conn_sends (chunks : List (List Char)) : List (List Char) :=
  (chunks.takeWhile (fun c => !c.isEmpty)).map (fun _ => "reload".toList)

/-! ## Claim C1 -/

/-- Claim C1: the spec says the output tree mirrors the `pages` subtree with
the `pages` segment stripped, so `src/pages/a/b/c.html` should land at
`dist/a/b/c.html`.  The code instead writes each file to its path relative to
its grandparent directory (`file_path.relative_to(file_path.parents[1])`),
which drops every intermediate directory: `pages/a/b/c.html` lands at
`dist/b/c.html`.  The two agree only at nesting depth at most two. -/
theorem claim_c1 :
    output_rel_path ["pages", "a", "b", "c.html"] = ["b", "c.html"]
    ∧ spec_output_rel_path ["pages", "a", "b", "c.html"] = ["a", "b", "c.html"]
    ∧ output_rel_path ["pages", "a", "b", "c.html"]
        ≠ spec_output_rel_path ["pages", "a", "b", "c.html"]
    ∧ output_rel_path ["pages", "c.html"] = spec_output_rel_path ["pages", "c.html"]
    ∧ output_rel_path ["pages", "a", "c.html"] = spec_output_rel_path ["pages", "a", "c.html"] := by
  refine ⟨by decide, by decide, by decide, by decide, by decide⟩

/-! ## Claim C5 -/

/-- Claim C5: the spec says every open reload connection is notified whenever
a rebuild completes.  In the code the channel's sends are a function of the
bytes the client sends alone: a silent client receives nothing (however many
rebuilds complete), a client that sends a chunk is answered `b"reload"` once
per chunk, and a closed connection stops the loop.  The watcher's event
handler only rebuilds; no code path connects rebuild completion to the
channel. -/
theorem claim_c5 :
    ws_conn_sends [] = []
    ∧ ws_conn_sends ["x".toList] = ["reload".toList]
    ∧ ws_conn_sends ["x".toList, [], "y".toList] = ["reload".toList]
    ∧ on_any_event false ("index.html".toList) = some WatchAction.rebuild := by
  refine ⟨by decide, by decide, by decide, by decide⟩

/-! ## Claim C7 -/

/-- Claim C7: the path resolver returns the joined, normalized path exactly
when it exists on disk, and `none` otherwise; the `try/except` of the source
is embedded as the totality of these functions, so no error propagates.
Stated for both `resolve_inline_path` and `resolve_template_path` (whose
directive parse is abstracted as `parse`). -/
theorem claim_c7 (ex : List String → Bool) (file_ref current_file p : List String) :
    (resolve_inline_path ex file_ref current_file = some p
      ↔ p = normSegs (current_file.dropLast ++ file_ref) ∧ ex p = true)
    ∧ ∀ (parse : List Char → Option (List String)) (tref : List Char),
        (resolve_template_path parse ex tref current_file = some p
          ↔ ∃ r, parse tref = some r
              ∧ p = normSegs (current_file.dropLast ++ r) ∧ ex p = true) := by
  constructor
  · unfold resolve_inline_path
    cases hex : ex (normSegs (current_file.dropLast ++ file_ref)) with
    | true =>
      simp only [hex, if_true]
      constructor
      · intro h
        cases h
        exact ⟨rfl, hex⟩
      · rintro ⟨rfl, _⟩
        rfl
    | false =>
      simp only [hex, if_false]
      constructor
      · intro h
        cases h
      · rintro ⟨rfl, hp⟩
        rw [hex] at hp
        cases hp
  · intro parse tref
    unfold resolve_template_path
    cases hp : parse tref with
    | none =>
      simp
    | some r =>
      cases hex : ex (normSegs (current_file.dropLast ++ r)) with
      | true =>
        simp only [hex, if_true]
        constructor
        · intro h
          cases h
          exact ⟨r, rfl, rfl, hex⟩
        · rintro ⟨r2, hr2, rfl, _⟩
          cases hr2
          rfl
      | false =>
        simp only [hex, if_false]
        constructor
        · intro h
          cases h
        · rintro ⟨r2, hr2, rfl, hpx⟩
          cases hr2
          rw [hex] at hpx
          cases hpx

/-! ## Claim C10 -/

/-- Claim C10: the request-path mapping strips the query, strips leading
slashes and joins onto the output directory with no `..` normalization and no
containment check: `/../../secret.txt?v=1` translates to a path whose `..`
segments survive, and whose normalized form escapes the output directory.
An ordinary request maps directly into the output tree. -/
theorem claim_c10 :
    translate_path ["home", "user", "dist"] ("/../../secret.txt?v=1".toList)
        = ["home", "user", "dist", "..", "..", "secret.txt"]
    ∧ normSegs (translate_path ["home", "user", "dist"] ("/../../secret.txt?v=1".toList))
        = ["home", "secret.txt"]
    ∧ isUnderDir ["home", "user", "dist"]
        (normSegs (translate_path ["home", "user", "dist"] ("/../../secret.txt?v=1".toList)))
        = false
    ∧ translate_path ["dist"] ("/a/b.html?x=1".toList) = ["dist", "a", "b.html"] := by
  refine ⟨by decide, by decide, by decide, by decide⟩

/-! ## HTML minifier (minify_html) -/

/-- Match of `<!--.*?-->` (DOTALL) at the head: the comment span is removed. -/
def tryComment (l : List Char) : Option (List Char × List Char) :=
  if startsWithL ("<!--".toList) l then
    match findSub ("-->".toList) (l.drop 4) with
    | some (_, after) => some ([], after)
    | none => none
  else none

/-- Match of `\s+` at the head: the whitespace run becomes one space. -/
def tryWsRun (l : List Char) : Option (List Char × List Char) :=
  match l with
  | [] => none
  | c :: t => if isSpaceCh c then some ([' '], t.dropWhile isSpaceCh) else none

/-- Match of `>\s+<` at the head: the run between the tags is removed. -/
def tryGtWsLt (l : List Char) : Option (List Char × List Char) :=
  match l with
  | '>' :: t =>
    let ws := t.takeWhile isSpaceCh
    if ws.isEmpty then none
    else if startsWithL ("<".toList) (t.drop ws.length) then
      some (">".toList ++ "<".toList, (t.drop ws.length).drop 1)
    else none
  | _ => none

/-- `minify_html(content, remove_empty_space, remove_comments)`: strip
comments, collapse whitespace runs, remove whitespace directly between `>`
and `<`, trim the ends — in the source's order. -/
def minify_html (content : List Char) (remove_empty_space remove_comments : Bool) :
    List Char :=
  let c1 := if remove_comments then applyRw tryComment content else content
  if remove_empty_space then pyStrip (applyRw tryGtWsLt (applyRw tryWsRun c1)) else c1

/-! ## Template substitution (process_template) -/

/-- Match of the placeholder pattern `<template:key(?:>| />)` at the head
(the `>` alternative is tried first, as the regex does); the match is
replaced by `value` and the value is not rescanned within this pass. -/
def tryOpenPh (key value : List Char) (l : List Char) : Option (List Char × List Char) :=
  let pat1 := "<template:".toList ++ key ++ ">".toList
  let pat2 := "<template:".toList ++ key ++ " />".toList
  if startsWithL pat1 l then some (value, l.drop pat1.length)
  else if startsWithL pat2 l then some (value, l.drop pat2.length)
  else none

/-- `process_template(content, template_data)`: for each key in map order,
substitute both placeholder forms by the value, then delete any closing tag
`</template:key>`.  `template_data` is the insertion-ordered dict as an
association list. -/
def process_template (template_data : List (List Char × List Char))
    (content : List Char) : List Char :=
  template_data.foldl
    (fun c kv =>
      replaceAll ("</template:".toList ++ kv.1 ++ ">".toList) []
        (applyRw (tryOpenPh kv.1 kv.2) c))
    content

/-! ## Claim C2 -/

/-- Claim C2 counterexample: with `template_data = {a: "<template:b />", b: "X"}`
(in that insertion order) and content `<template:a />`, the pass for `a`
introduces the placeholder `<template:b />`, and the later pass for `b`
rescans it and expands it to `X`.  The claim says the introduced placeholder
is left unexpanded for every map — false for this map. -/
theorem claim_c2_counterexample :
    process_template
        [("a".toList, "<template:b />".toList), ("b".toList, "X".toList)]
        ("<template:a />".toList)
      = "X".toList
    ∧ "X".toList ≠ "<template:b />".toList := by
  refine ⟨by decide, by decide⟩

/-- Claim C2 as amended: substitution is one sequential pass per key in map
order, and a placeholder introduced by one key's substitution is rescanned
exactly by the passes of the keys that come later in that order.  When the
other key's pass has already run (`b` before `a` below) the introduced
placeholder survives unexpanded; when it comes later it is expanded. -/
theorem claim_c2_amended :
    process_template
        [("b".toList, "X".toList), ("a".toList, "<template:b />".toList)]
        ("<template:a />".toList)
      = "<template:b />".toList
    ∧ process_template
        [("a".toList, "<template:b />".toList), ("b".toList, "X".toList)]
        ("<template:a />".toList)
      = "X".toList := by
  refine ⟨by decide, by decide⟩

/-! ## Claim C3 -/

/-- Claim C3 counterexample: the claim says `<p>   </p>` minifies to
`<p> </p>`.  In the code the whitespace-collapse pass is followed by the
inter-tag pass `>\s+<` → `><`, which also fires here, so the result is
`<p></p>`. -/
theorem claim_c3_counterexample :
    minify_html ("<p>   </p>".toList) true true = "<p></p>".toList
    ∧ minify_html ("<p>   </p>".toList) true true ≠ "<p> </p>".toList := by
  refine ⟨by decide, by decide⟩

/-- Claim C3 as amended: with both options enabled the minifier removes
`<!-- ... -->` comment spans (non-greedy, across newlines), collapses each
whitespace run to one space except runs lying strictly between `>` and a
following `<`, which are removed entirely (so `<p>   </p>` yields `<p></p>`,
and `<div> </div>` yields `<div></div>`), and trims leading and trailing
whitespace. -/
theorem claim_c3_amended :
    minify_html ("<a><!-- x\n y --><b>".toList) true true = "<a><b>".toList
    ∧ minify_html ("<p>   </p>".toList) true true = "<p></p>".toList
    ∧ minify_html ("<div> </div>".toList) true true = "<div></div>".toList
    ∧ minify_html ("  <em>a  b</em>  ".toList) true true = "<em>a b</em>".toList := by
  refine ⟨by decide, by decide, by decide, by decide⟩

/-! ## Helper lemmas on prefixes and stripping -/

theorem startsWithL_append_self (p u : List Char) : startsWithL p (p ++ u) = true := by
  induction p with
  | nil => rfl
  | cons a ps ih => simp [startsWithL, ih]

theorem startsWithL_exists {p l : List Char} (h : startsWithL p l = true) :
    ∃ u, l = p ++ u := by
  induction p generalizing l with
  | nil => exact ⟨l, rfl⟩
  | cons a ps ih =>
    cases l with
    | nil => exact absurd h (by simp [startsWithL])
    | cons c cs =>
      simp only [startsWithL] at h
      split at h
      · next hac =>
        obtain ⟨u, hu⟩ := ih h
        exact ⟨u, by rw [hu, hac, List.cons_append]⟩
      · exact absurd h (by simp)

theorem startsWithL_of_append {p q l : List Char} (h : startsWithL (p ++ q) l = true) :
    startsWithL p l = true := by
  induction p generalizing l with
  | nil => rfl
  | cons a ps ih =>
    cases l with
    | nil => exact absurd h (by simp [startsWithL])
    | cons c cs =>
      simp only [List.cons_append, startsWithL] at h ⊢
      split at h
      · next hac => rw [if_pos hac]; exact ih h
      · next hac => rw [if_neg hac]; exact h

theorem dropWhile_all_false {p : Char → Bool} :
    ∀ {m : List Char}, (∀ c ∈ m, p c = false) → List.dropWhile p m = m := by
  intro m hm
  induction m with
  | nil => rfl
  | cons a t ih =>
    rw [List.dropWhile_cons, hm a (by simp)]
    simp

theorem dropWhileAppend (p : Char → Bool) (l₁ l₂ : List Char) :
    List.dropWhile p (l₁ ++ l₂) =
      if List.dropWhile p l₁ = [] then List.dropWhile p l₂
      else List.dropWhile p l₁ ++ l₂ := by
  induction l₁ with
  | nil => simp
  | cons a t ih =>
    rw [List.cons_append, List.dropWhile_cons, List.dropWhile_cons]
    cases hpa : p a with
    | true => simpa using ih
    | false => simp

/-- Stripping whitespace keeps a whitespace-free prefix in place. -/
theorem pyStrip_startsWithL {pat l : List Char}
    (hws : ∀ c ∈ pat, isSpaceCh c = false) (h : startsWithL pat l = true) :
    startsWithL pat (pyStrip l) = true := by
  obtain ⟨u, rfl⟩ := startsWithL_exists h
  cases pat with
  | nil => rfl
  | cons a ps =>
    have ha : isSpaceCh a = false := hws a (by simp)
    unfold pyStrip
    rw [List.cons_append, List.dropWhile_cons, ha]
    simp only [Bool.false_eq_true, if_false]
    rw [show (a :: (ps ++ u)) = (a :: ps) ++ u from rfl,
      show ((a :: ps) ++ u).reverse = u.reverse ++ (a :: ps).reverse from by simp,
      dropWhileAppend]
    split
    · rw [dropWhile_all_false (fun c hc => hws c (List.mem_reverse.mp hc)),
        List.reverse_reverse]
      simpa using startsWithL_append_self (a :: ps) []
    · rw [List.reverse_append, List.reverse_reverse]
      exact startsWithL_append_self _ _

/-! ## Asset inliners (inline_css.css_repl, inline_js.js_repl) -/

/-- The inline `<style>` element that replaces a stylesheet link. -/
def styleWrap (css : List Char) : List Char :=
  "<style>".toList ++ css ++ "</style>".toList

/-- The inline `<script>` element that replaces a script reference. -/
def scriptWrap (js : List Char) : List Char :=
  "<script>".toList ++ js ++ "</script>".toList

/-- `css_repl(match)` of `inline_css`: `whole` is the matched tag (group 0)
and `href` the captured reference (group 1).  External references are kept;
otherwise the reference is resolved (`resolve`, abstracting
`resolve_inline_path` at the current file) and read (`load`, with `none` for
an unreadable file and `some []` for an empty one — both falsy in the
source); a compression failure (`Except.error`) falls back to the unminified
content. -/
def css_repl {P : Type} (resolve : List Char → Option P) (load : P → Option (List Char))
    (compress : List Char → Except Unit (List Char)) (whole href : List Char) : List Char :=
  if startsWithL ("http".toList) (pyStrip href) || startsWithL ("//".toList) (pyStrip href) then
    whole
  else
    match resolve (pyStrip href) with
    | some p =>
      match load p with
      | some css =>
        if css.isEmpty then whole
        else
          match compress css with
          | Except.ok m => styleWrap m
          | Except.error _ => styleWrap css
      | none => whole
    | none => whole

/-- `js_repl(match)` of `inline_js`: as `css_repl`, but `jsmin` is called with
no handler, so a minifier failure propagates out of the replacer (the
`Except.error` outcome) instead of falling back. -/
def js_repl {P : Type} (resolve : List Char → Option P) (load : P → Option (List Char))
    (jsminE : List Char → Except Unit (List Char)) (whole src : List Char) :
    Except Unit (List Char) :=
  if startsWithL ("http".toList) (pyStrip src) || startsWithL ("//".toList) (pyStrip src) then
    Except.ok whole
  else
    match resolve (pyStrip src) with
    | some p =>
      match load p with
      | some js =>
        if js.isEmpty then Except.ok whole
        else (jsminE js).map scriptWrap
      | none => Except.ok whole
    | none => Except.ok whole

/-! ## Claim C6 -/

/-- Claim C6: a stylesheet or script reference whose URL starts with `http`,
`https` or `//` leaves the matched tag byte-for-byte unchanged in both
inliners, whatever the filesystem holds. -/
theorem claim_c6 {P : Type} (resolve : List Char → Option P) (load : P → Option (List Char))
    (compress jsminE : List Char → Except Unit (List Char)) (whole wholeJs href src : List Char)
    (h1 : startsWithL ("http".toList) href = true ∨ startsWithL ("https".toList) href = true
        ∨ startsWithL ("//".toList) href = true)
    (h2 : startsWithL ("http".toList) src = true ∨ startsWithL ("https".toList) src = true
        ∨ startsWithL ("//".toList) src = true) :
    css_repl resolve load compress whole href = whole
    ∧ js_repl resolve load jsminE wholeJs src = Except.ok wholeJs := by
  have key : ∀ r : List Char,
      (startsWithL ("http".toList) r = true ∨ startsWithL ("https".toList) r = true
        ∨ startsWithL ("//".toList) r = true) →
      (startsWithL ("http".toList) (pyStrip r) || startsWithL ("//".toList) (pyStrip r)) = true := by
    intro r hr
    rcases hr with h | h | h
    · rw [pyStrip_startsWithL (by decide) h]
      simp
    · have h4 : startsWithL ("http".toList) r = true := by
        refine startsWithL_of_append (q := ['s']) ?_
        rw [show ("http".toList ++ ['s']) = "https".toList from by decide]
        exact h
      rw [pyStrip_startsWithL (by decide) h4]
      simp
    · rw [pyStrip_startsWithL (by decide) h]
      simp
  constructor
  · unfold css_repl
    rw [key href h1]
    simp
  · unfold js_repl
    rw [key src h2]
    simp

/-- Claim C6 witness at a concrete `https` stylesheet and a concrete
protocol-relative script. -/
theorem claim_c6_witness :
    css_repl (fun _ => (none : Option Unit)) (fun _ => none) (fun _ => Except.error ())
        ("<link rel=\"stylesheet\" href=\"https://cdn.example/a.css\">".toList)
        ("https://cdn.example/a.css".toList)
      = "<link rel=\"stylesheet\" href=\"https://cdn.example/a.css\">".toList
    ∧ js_repl (fun _ => (none : Option Unit)) (fun _ => none) (fun _ => Except.error ())
        ("<script src=\"//cdn.example/a.js\"></script>".toList)
        ("//cdn.example/a.js".toList)
      = Except.ok ("<script src=\"//cdn.example/a.js\"></script>".toList) :=
  claim_c6 _ _ _ _ _ _ _ _
    (Or.inr (Or.inl (by decide))) (Or.inr (Or.inr (by decide)))

/-! ## Claim C4 -/

/-- Claim C4: on a resolved, non-empty local asset, a CSS minifier failure
falls back to inlining the unminified content in `<style>...</style>`, while
a JS minifier failure has no fallback and propagates out of the replacer. -/
theorem claim_c4 {P : Type} (resolve : List Char → Option P) (load : P → Option (List Char))
    (whole wholeJs href src : List Char) (p q : P) (css js : List Char)
    (hx : (startsWithL ("http".toList) (pyStrip href)
        || startsWithL ("//".toList) (pyStrip href)) = false)
    (hr : resolve (pyStrip href) = some p)
    (hl : load p = some css)
    (hc : css ≠ [])
    (hy : (startsWithL ("http".toList) (pyStrip src)
        || startsWithL ("//".toList) (pyStrip src)) = false)
    (hs : resolve (pyStrip src) = some q)
    (hj : load q = some js)
    (hjn : js ≠ []) :
    css_repl resolve load (fun _ => Except.error ()) whole href = styleWrap css
    ∧ js_repl resolve load (fun _ => Except.error ()) wholeJs src = Except.error () := by
  obtain ⟨c0, cs0, rfl⟩ : ∃ c0 cs0, css = c0 :: cs0 := by
    cases css with
    | nil => exact absurd rfl hc
    | cons c0 cs0 => exact ⟨c0, cs0, rfl⟩
  obtain ⟨j0, js0, rfl⟩ : ∃ j0 js0, js = j0 :: js0 := by
    cases js with
    | nil => exact absurd rfl hjn
    | cons j0 js0 => exact ⟨j0, js0, rfl⟩
  constructor
  · unfold css_repl
    rw [hx]
    simp only [Bool.false_eq_true, if_false, hr, hl]
    simp
  · unfold js_repl
    rw [hy]
    simp only [Bool.false_eq_true, if_false, hs, hj]
    simp [Except.map]

/-- Claim C4 witness on a concrete two-file filesystem whose minifiers always
fail. -/
theorem claim_c4_witness :
    css_repl
        (fun s => if s = "a.css".toList then some 0 else if s = "a.js".toList then some 1 else none)
        (fun n => if n = 0 then some ("b".toList) else some ("x=1".toList))
        (fun _ => Except.error ()) ("<link>".toList) ("a.css".toList)
      = styleWrap ("b".toList)
    ∧ js_repl
        (fun s => if s = "a.css".toList then some 0 else if s = "a.js".toList then some 1 else none)
        (fun n => if n = 0 then some ("b".toList) else some ("x=1".toList))
        (fun _ => Except.error ()) ("<script></script>".toList) ("a.js".toList)
      = Except.error () :=
  claim_c4 _ _ _ _ _ _ 0 1 ("b".toList) ("x=1".toList)
    (by decide) (by decide) (by decide) (by decide)
    (by decide) (by decide) (by decide) (by decide)

/-! ## Include resolution stage of process_file (lines 168-199) -/

/-- Match of the include directive `<%@\s*[^>]+%>` at the head.  After `<%@`,
the run `r` of non-`>` characters must be followed by `>` and decompose as
`\s*[^>]+%` (equivalently: `r` ends in `%` and has length at least two).  The
capture is the whole matched directive text, as `re.findall` without groups
returns it. -/
def tryInclude (l : List Char) : Option (List Char × List Char) :=
  if startsWithL ("<%@".toList) l then
    let rest := l.drop 3
    let r := rest.takeWhile (fun c => !(c == '>'))
    if ((rest.drop r.length).head? == some '>') && endsWithL ("%".toList) r
        && decide (2 ≤ r.length) then
      some ("<%@".toList ++ r ++ ">".toList, rest.drop (r.length + 1))
    else none
  else none

/-- Match of a data block `<template:([^>]+)>(.*?)</template:\1>` at the
head: the key is the maximal nonempty run of non-`>` characters, the value
the shortest span before the matching closing tag. -/
def tryDataBlock (l : List Char) : Option ((List Char × List Char) × List Char) :=
  if startsWithL ("<template:".toList) l then
    let rest := l.drop 10
    let key := rest.takeWhile (fun c => !(c == '>'))
    if key.isEmpty then none
    else if (rest.drop key.length).head? == some '>' then
      match findSub ("</template:".toList ++ key ++ ">".toList) (rest.drop (key.length + 1)) with
      | some (value, after) => some ((key, value), after)
      | none => none
    else none
  else none

/-- Match of `<template:key>.*?</template:key>` (the removal pass run once
per extracted key); the span is deleted. -/
def tryRemoveBlock (key : List Char) (l : List Char) : Option (List Char × List Char) :=
  if startsWithL ("<template:".toList ++ key ++ ">".toList) l then
    match findSub ("</template:".toList ++ key ++ ">".toList)
        (l.drop (("<template:".toList ++ key ++ ">".toList).length)) with
    | some (_, after) => some ([], after)
    | none => none
  else none

/-- First alternative of the residual-cleanup pattern:
`<template:[^>]+ />` (a self-closing data marker); deleted. -/
def tryResidualTpl (l : List Char) : Option (List Char × List Char) :=
  if startsWithL ("<template:".toList) l then
    let rest := l.drop 10
    let r := rest.takeWhile (fun c => !(c == '>'))
    if ((rest.drop r.length).head? == some '>') && endsWithL (" /".toList) r
        && decide (3 ≤ r.length) then
      some ([], rest.drop (r.length + 1))
    else none
  else none

/-- Second alternative of the residual-cleanup pattern: `<%%\s*/>`; deleted. -/
def tryResidualPct (l : List Char) : Option (List Char × List Char) :=
  if startsWithL ("<%%".toList) l then
    let rest := l.drop 3
    let ws := rest.takeWhile isSpaceCh
    if startsWithL ("/>".toList) (rest.drop ws.length) then
      some ([], (rest.drop ws.length).drop 2)
    else none
  else none

/-- The residual-cleanup pattern `<template:[^>]+ />|<%%\s*/>`, left
alternative first as the regex engine tries it. -/
def tryResidual (l : List Char) : Option (List Char × List Char) :=
  match tryResidualTpl l with
  | some x => some x
  | none => tryResidualPct l

/-- Insertion-ordered dict update (`template_data[key] = value`): an existing
key keeps its position and gets the new value. -/
def upsertKV (d : List (List Char × List Char)) (k v : List Char) :
    List (List Char × List Char) :=
  match d with
  | [] => [(k, v)]
  | (k0, v0) :: rest => if k0 = k then (k0, v) :: rest else (k0, v0) :: upsertKV rest k v

/-- The include-resolution stage of `process_file` (everything between
reading the file and the asset passes): find the include directives and the
data blocks of the original content, build the data map (keys map to their
stripped values), delete every data-block span, splice each include —
substituted via `process_template` — in place of its directive (an
unresolvable directive is replaced by the empty string, a resolved but
empty or unreadable partial leaves the directive in place), and finally
delete residual self-closing markers.  `resolvePath` and `loadF` abstract
`resolve_template_path` (with its `exists` check) and `load_file_content`. -/
def process_file_includes {P : Type} (resolvePath : List Char → Option P)
    (loadF : P → Option (List Char)) (content : List Char) : List Char :=
  applyRw tryResidual
    ((findAll tryInclude content).foldl
      (fun c inc =>
        match resolvePath inc with
        | some p =>
          match loadF p with
          | some t =>
            if t.isEmpty then c
            else
              replaceAll inc
                (process_template
                  ((findAll tryDataBlock content).foldl
                    (fun d kv => upsertKV d kv.1 (pyStrip kv.2)) [])
                  t) c
          | none => c
        | none => replaceAll inc [] c)
      ((findAll tryDataBlock content).foldl
        (fun c kv => applyRw (tryRemoveBlock kv.1) c) content))

/-! ## No-match identity lemmas -/

theorem startsWithL_drop_false {pat l : List Char} (h : isSubstr pat l = false) :
    ∀ n, startsWithL pat (l.drop n) = false := by
  induction l with
  | nil =>
    intro n
    rw [List.drop_nil]
    simpa [isSubstr] using h
  | cons c t ih =>
    simp only [isSubstr, List.tail_cons, Bool.or_eq_false_iff] at h
    intro n
    cases n with
    | zero => exact h.1
    | succ m => exact ih h.2 m

theorem scanRw_id {tryF : List Char → Option (List Char × List Char)} :
    ∀ (fuel : Nat) (l : List Char), (∀ n, tryF (l.drop n) = none) →
      scanRw tryF fuel l = l := by
  intro fuel
  induction fuel with
  | zero => intro l _; rfl
  | succ fuel ih =>
    intro l h
    cases l with
    | nil => rfl
    | cons c t =>
      have h0 : tryF (c :: t) = none := by simpa using h 0
      rw [scanRw, h0]
      rw [ih t (fun n => by simpa using h (n + 1))]

theorem scanFa_nil {α : Type} {tryF : List Char → Option (α × List Char)} :
    ∀ (fuel : Nat) (l : List Char), (∀ n, tryF (l.drop n) = none) →
      scanFa tryF fuel l = [] := by
  intro fuel
  induction fuel with
  | zero => intro l _; rfl
  | succ fuel ih =>
    intro l h
    cases l with
    | nil => rfl
    | cons c t =>
      have h0 : tryF (c :: t) = none := by simpa using h 0
      rw [scanFa, h0]
      exact ih t (fun n => by simpa using h (n + 1))

theorem tryInclude_none {l : List Char} (h : startsWithL ("<%@".toList) l = false) :
    tryInclude l = none := by
  unfold tryInclude
  rw [h]
  simp

theorem tryDataBlock_none {l : List Char} (h : startsWithL ("<template:".toList) l = false) :
    tryDataBlock l = none := by
  unfold tryDataBlock
  rw [h]
  simp

theorem tryResidual_none {l : List Char}
    (h2 : startsWithL ("<template:".toList) l = false)
    (h3 : startsWithL ("<%%".toList) l = false) :
    tryResidual l = none := by
  unfold tryResidual tryResidualTpl tryResidualPct
  rw [h2, h3]
  simp

/-! ## Claim C8 -/

/-- Claim C8: the include-resolution stage is the identity on already
resolved content — any text containing no include or template markup at all
(no `<%@`, no `<template:`, no `<%%` marker anywhere) passes through
data-block extraction, include splicing and residual cleanup unchanged,
whatever the filesystem holds. -/
theorem claim_c8 {P : Type} (resolvePath : List Char → Option P)
    (loadF : P → Option (List Char)) (content : List Char)
    (h1 : isSubstr ("<%@".toList) content = false)
    (h2 : isSubstr ("<template:".toList) content = false)
    (h3 : isSubstr ("<%%".toList) content = false) :
    process_file_includes resolvePath loadF content = content := by
  have hinc : findAll tryInclude content = [] :=
    scanFa_nil _ _ (fun n => tryInclude_none (startsWithL_drop_false h1 n))
  have hdb : findAll tryDataBlock content = [] :=
    scanFa_nil _ _ (fun n => tryDataBlock_none (startsWithL_drop_false h2 n))
  have hres : applyRw tryResidual content = content :=
    scanRw_id _ _ (fun n =>
      tryResidual_none (startsWithL_drop_false h2 n) (startsWithL_drop_false h3 n))
  unfold process_file_includes
  rw [hinc, hdb]
  simpa using hres

/-- Claim C8 witness on concrete directive-free content. -/
theorem claim_c8_witness :
    process_file_includes (fun _ => (none : Option Unit)) (fun _ => none)
        ("hello <b>world</b>".toList)
      = "hello <b>world</b>".toList :=
  claim_c8 _ _ _ (by decide) (by decide) (by decide)

/-! ## Embedded-script rewriter (process_js_blocks) -/

/-- `[a-zA-Z]`. -/
def isAlphaCh (c : Char) : Bool :=
  ('a' ≤ c && c ≤ 'z') || ('A' ≤ c && c ≤ 'Z')

/-- Match of `<([a-zA-Z]+)[^>]*>%%(.*?)%%</\1>` at the head: the host tag
name is the maximal letter run after `<`, the attribute run (everything up to
the first `>`) is parsed and then dropped — it is not a capture group — and
the JS body is the shortest span before `%%</tag>`. -/
def tryJsBlock : List Char → Option ((List Char × List Char) × List Char)
  | [] => none
  | c :: t =>
    if c = '<' then
      let tag := t.takeWhile isAlphaCh
      let rest1 := t.drop tag.length
      let attrs := rest1.takeWhile (fun c2 => !(c2 == '>'))
      let rest2 := rest1.drop attrs.length
      if tag.isEmpty then none
      else if startsWithL (">%%".toList) rest2 then
        match findSub ("%%</".toList ++ tag ++ ">".toList) (rest2.drop 3) with
        | some (jsBody, after) => some ((tag, jsBody), after)
        | none => none
      else none
    else none

/-- `replace_js_block(match)`: the emitted text for one matched block.  The
opening tag holds exactly the generated `data-wyttle-ref` attribute — the
host element's original attributes are not part of it — followed by the
`<script>` that assigns the minified, stripped JS body, and the closing
tag. -/
def mkJsReplacement (jsminF : List Char → List Char) (tag js id : List Char) : List Char :=
  "<".toList ++ tag ++ " data-wyttle-ref=\"".toList ++ id ++ "\">".toList
    ++ "<script>document.querySelector(\"[data-wyttle-ref=\\\"".toList ++ id
    ++ "\\\"]\").textContent = ".toList ++ jsminF (pyStrip js) ++ ";</script>".toList
    ++ "</".toList ++ tag ++ ">".toList

/-- The `re.sub` scan of `process_js_blocks`, threading the stream of
generated identifiers (`uuid.uuid4()` outcomes) through the matches. -/
def processJsBlocksAux (jsminF : List Char → List Char) :
    Nat → List (List Char) → List Char → List Char
  | 0, _, l => l
  | _ + 1, _, [] => []
  | fuel + 1, ids, c :: t =>
    match tryJsBlock (c :: t) with
    | some ((tag, jsBody), rest) =>
      mkJsReplacement jsminF tag jsBody (ids.headD [])
        ++ processJsBlocksAux jsminF fuel (ids.drop 1) rest
    | none => c :: processJsBlocksAux jsminF fuel ids t

/-- `process_js_blocks(content)` with the minifier and the identifier stream
abstracted. -/
def process_js_blocks (jsminF : List Char → List Char) (ids : List (List Char))
    (content : List Char) : List Char :=
  processJsBlocksAux jsminF (content.length + 1) ids content

/-! ## Lemmas for the block scanner -/

theorem takeWhile_append_all {p : Char → Bool} :
    ∀ {a : List Char} (b : List Char), (∀ c ∈ a, p c = true) →
      (a ++ b).takeWhile p = a ++ b.takeWhile p := by
  intro a
  induction a with
  | nil => intro b _; rfl
  | cons x xs ih =>
    intro b h
    rw [List.cons_append, List.takeWhile_cons, h x (by simp)]
    rw [ih b (fun c hc => h c (by simp [hc]))]
    simp

theorem takeWhile_eq_nil_headD {p : Char → Bool} (d : Char) (b : List Char)
    (h : p (b.headD d) = false) : b.takeWhile p = [] := by
  cases b with
  | nil => rfl
  | cons x xs =>
    simp only [List.headD_cons] at h
    rw [List.takeWhile_cons, h]
    simp

theorem headD_append_cons (a : List Char) (x : Char) (r : List Char) (d : Char) :
    (a ++ x :: r).headD d = a.headD x := by
  cases a with
  | nil => rfl
  | cons y ys => rfl

theorem drop_len_append (a b : List Char) : (a ++ b).drop a.length = b := by
  induction a with
  | nil => rfl
  | cons x xs ih => simp [ih]

theorem findSub_boundary {pat : List Char} (js : List Char)
    (hhead : pat.head? = some '%') (hjs : ∀ c ∈ js, c ≠ '%') :
    findSub pat (js ++ pat) = some (js, []) := by
  obtain ⟨pt, rfl⟩ : ∃ pt, pat = '%' :: pt := by
    cases pat with
    | nil => cases hhead
    | cons p0 ps =>
      simp only [List.head?_cons, Option.some.injEq] at hhead
      exact ⟨ps, by rw [hhead]⟩
  clear hhead
  induction js with
  | nil =>
    rw [List.nil_append, findSub]
    have hs : startsWithL ('%' :: pt) ('%' :: pt) = true := by
      simpa using startsWithL_append_self ('%' :: pt) []
    simp [hs, List.drop_length]
  | cons c js' ih =>
    have hc : c ≠ '%' := hjs c (by simp)
    rw [List.cons_append, findSub]
    have hsw : startsWithL ('%' :: pt) (c :: (js' ++ '%' :: pt)) = false := by
      rw [startsWithL, if_neg (fun h => hc h.symm)]
    rw [hsw]
    simp only [Bool.false_eq_true, if_false]
    rw [ih (fun c2 hc2 => hjs c2 (by simp [hc2]))]
    rfl

/-! ## Claim C9 -/

/-- Claim C9: for a matched embedded-script block
`<TAG attrs>%%js%%</TAG>`, the host element's original attributes are
discarded: the scanner's capture is `(TAG, js)` only (the attribute run is
parsed and dropped, whatever it holds), and the rewritten output is
`mkJsReplacement`, whose emitted opening tag carries exactly the generated
`data-wyttle-ref` identifier and none of the original attributes. -/
theorem claim_c9 (jsminF : List Char → List Char) (tag attrs js id : List Char)
    (ids : List (List Char))
    (htag : tag ≠ [])
    (halpha : ∀ c ∈ tag, isAlphaCh c = true)
    (hattr1 : isAlphaCh (attrs.headD '>') = false)
    (hattr2 : ∀ c ∈ attrs, (c == '>') = false)
    (hjs : ∀ c ∈ js, c ≠ '%') :
    tryJsBlock ("<".toList ++ tag ++ attrs ++ ">%%".toList ++ js
        ++ "%%</".toList ++ tag ++ ">".toList) = some ((tag, js), [])
    ∧ process_js_blocks jsminF (id :: ids)
        ("<".toList ++ tag ++ attrs ++ ">%%".toList ++ js
          ++ "%%</".toList ++ tag ++ ">".toList)
      = mkJsReplacement jsminF tag js id := by
  have econtent : ("<".toList ++ tag ++ attrs ++ ">%%".toList ++ js
        ++ "%%</".toList ++ tag ++ ">".toList)
      = '<' :: (tag ++ (attrs ++ ('>' :: '%' :: '%' ::
          (js ++ ("%%</".toList ++ tag ++ ">".toList))))) := by
    rw [show ("<".toList : List Char) = ['<'] from rfl,
      show (">%%".toList : List Char) = ['>', '%', '%'] from rfl]
    simp [List.append_assoc]
  have hpathead : ("%%</".toList ++ tag ++ ">".toList).head? = some '%' := rfl
  have htw : (tag ++ (attrs ++ ('>' :: '%' :: '%' ::
        (js ++ ("%%</".toList ++ tag ++ ">".toList))))).takeWhile isAlphaCh = tag := by
    rw [takeWhile_append_all _ halpha,
      takeWhile_eq_nil_headD '>' _
        (by rw [headD_append_cons]; exact hattr1),
      List.append_nil]
  have hd1 : (tag ++ (attrs ++ ('>' :: '%' :: '%' ::
        (js ++ ("%%</".toList ++ tag ++ ">".toList))))).drop tag.length
      = attrs ++ ('>' :: '%' :: '%' :: (js ++ ("%%</".toList ++ tag ++ ">".toList))) :=
    drop_len_append _ _
  have htw2 : (attrs ++ ('>' :: '%' :: '%' ::
        (js ++ ("%%</".toList ++ tag ++ ">".toList)))).takeWhile (fun c2 => !(c2 == '>'))
      = attrs := by
    rw [takeWhile_append_all _ (fun c hc => by rw [hattr2 c hc]; rfl),
      List.takeWhile_cons]
    simp
  have hd2 : (attrs ++ ('>' :: '%' :: '%' ::
        (js ++ ("%%</".toList ++ tag ++ ">".toList)))).drop attrs.length
      = '>' :: '%' :: '%' :: (js ++ ("%%</".toList ++ tag ++ ">".toList)) :=
    drop_len_append _ _
  have hsw : startsWithL (">%%".toList)
      ('>' :: '%' :: '%' :: (js ++ ("%%</".toList ++ tag ++ ">".toList))) = true := by
    rw [show (">%%".toList : List Char) = ['>', '%', '%'] from rfl]
    simp [startsWithL]
  have hk : tag.isEmpty = false := by
    cases tag with
    | nil => exact absurd rfl htag
    | cons a b => rfl
  have hx3 : ('>' :: '%' :: '%' :: (js ++ ("%%</".toList ++ tag ++ ">".toList))).drop 3
      = js ++ ("%%</".toList ++ tag ++ ">".toList) := rfl
  have hfs : findSub ("%%</".toList ++ tag ++ ">".toList)
      (js ++ ("%%</".toList ++ tag ++ ">".toList))
      = some (js, []) := findSub_boundary js hpathead hjs
  have hfirst : tryJsBlock ('<' :: (tag ++ (attrs ++ ('>' :: '%' :: '%' ::
      (js ++ ("%%</".toList ++ tag ++ ">".toList)))))) = some ((tag, js), []) := by
    rw [tryJsBlock, if_pos rfl]
    simp only [htw, hd1, htw2, hd2, hk, hsw, hx3, hfs, Bool.false_eq_true, if_false, if_true]
  constructor
  · rw [econtent]
    exact hfirst
  · unfold process_js_blocks
    rw [econtent]
    rw [show ('<' :: (tag ++ (attrs ++ ('>' :: '%' :: '%' ::
          (js ++ ("%%</".toList ++ tag ++ ">".toList)))))).length + 1
        = ((tag ++ (attrs ++ ('>' :: '%' :: '%' ::
          (js ++ ("%%</".toList ++ tag ++ ">".toList))))).length + 1) + 1 from by
      simp [List.length_cons]]
    rw [processJsBlocksAux, hfirst]
    simp only [List.headD_cons, List.drop_one, List.tail_cons]
    rw [processJsBlocksAux]
    simp

/-- Claim C9 witness: a concrete `<div class="x">%%return 1%%</div>` block;
the class attribute does not survive into the rewritten output. -/
theorem claim_c9_witness :
    tryJsBlock ("<".toList ++ "div".toList ++ " class=\"x\"".toList ++ ">%%".toList
        ++ "return 1".toList ++ "%%</".toList ++ "div".toList ++ ">".toList)
      = some (("div".toList, "return 1".toList), [])
    ∧ process_js_blocks (fun l => l) ["u1".toList]
        ("<".toList ++ "div".toList ++ " class=\"x\"".toList ++ ">%%".toList
          ++ "return 1".toList ++ "%%</".toList ++ "div".toList ++ ">".toList)
      = mkJsReplacement (fun l => l) ("div".toList) ("return 1".toList) ("u1".toList) :=
  claim_c9 (fun l => l) ("div".toList) (" class=\"x\"".toList) ("return 1".toList)
    ("u1".toList) [] (by decide) (by decide) (by decide) (by decide) (by decide)
